import Mathlib

/-!
Verification of the BabyMilu voice-streaming server's proactive-wake core:
the alarm scheduler (`services/alarms/scheduler.py`), the session-lock store
(`services/session_context/store.py` and `models.py`), the per-connection
follow-up state machine and the audio reassembly buffer
(`core/connection.py`).

Modelling conventions.
* Ints are integer UTC seconds since the epoch; `datetime` arithmetic and
  comparisons become `Int` arithmetic.  Lean's `/` and `%` on `Int` are
  Euclidean, which for the positive divisors used here (86400, 7) agree
  with Python's floor division and modulo.
* A timezone is modelled as a fixed offset in seconds added to UTC to obtain
  local time (`ZoneInfo` without DST transitions); `schedule.time_local`
  ("HH:MM", parsed by `strptime`) is modelled as seconds after local
  midnight, and schedule day names as weekday indices `Mon = 0 … Sun = 6`
  (the source's `_DAY_TO_INDEX` over `models.DAY_NAMES`).
* The Firestore collections are modelled as maps: the session-context
  collection keyed by device id (`String → Option StoredSession`), the alarm
  collection as a list of alarm documents updated in place.
* Exceptions are modelled explicitly: a fallible document read is a
  `ReadResult`, and the two failure points of the scheduler's advancement
  step (`_resolve_timezone` raising, `mark_alarm_processed` skipping on a
  falsy `doc_path`) are the `Option` cases of `tzoffset` and `doc_path`.
* Modelled from the spec: `AlarmDoc.last_processed_utc`, `AlarmDoc.doc_path`,
  `ModeSession.conversation` and `ModeSession.is_snooze_follow_up` are used
  throughout `scheduler.py`, `firestore_client.py`, `store.py` and the
  repository's own tests, but the snapshot's `models.py` dataclass
  declarations do not list them; they are modelled here with the field sets
  the spec gives for ScheduledTrigger and the Session Lock record.
-/

namespace BabyMilu

/-- `DEFAULT_SESSION_TTL_SECONDS` from `services/session_context/models.py`. -/
def DEFAULT_SESSION_TTL_SECONDS : Int := 300

/-- The `sessionConfig` payload the scheduler writes for a wake
(`{mode, alarmId, userId, label}` in `scheduler.py`); the claims quantify
over values of this record. -/
structure SessionConfig where
  mode : String
  alarmId : String
  userId : String
  label : Option String
deriving DecidableEq

/-- One stored document of the `sessionContexts` collection: exactly the
fields `SessionContextStore.create_session` writes.  `conversation` and
`isSnoozeFollowUp` are modelled from the spec (see the file header). -/
structure StoredSession where
  sessionType : String
  triggeredAt : Int
  ttlSeconds : Int
  expiresAt : Option Int
  sessionConfig : SessionConfig
  conversation : List (String × String)
  isSnoozeFollowUp : Bool
deriving DecidableEq

/-- The `ModeSession` dataclass of `services/session_context/models.py`,
with the two spec-modelled fields (see the file header). -/
structure ModeSession where
  device_id : String
  session_type : String
  triggered_at : Int
  ttl_seconds : Int
  expires_at : Option Int
  session_config : SessionConfig
  conversation : List (String × String)
  is_snooze_follow_up : Bool
deriving DecidableEq

/-- `ModeSession.__post_init__`: when `expires_at` was not given and
`ttl_seconds` is truthy (nonzero), derive
`expires_at = triggered_at + ttl_seconds`. -/
def mkModeSession (device_id session_type : String) (triggered_at : Int)
    (ttl_seconds : Int) (expires_at : Option Int)
    (session_config : SessionConfig) (conversation : List (String × String))
    (is_snooze_follow_up : Bool) : ModeSession :=
  { device_id := device_id
    session_type := session_type
    triggered_at := triggered_at
    ttl_seconds := ttl_seconds
    expires_at :=
      match expires_at with
      | none => if ttl_seconds ≠ 0 then some (triggered_at + ttl_seconds) else none
      | some e => some e
    session_config := session_config
    conversation := conversation
    is_snooze_follow_up := is_snooze_follow_up }

/-- `ModeSession.is_expired(now)`: false when `expires_at` is unset
(a `datetime` is always truthy in Python, `None` is falsy), otherwise
`now >= expires_at`. -/
def ModeSession.is_expired (s : ModeSession) (now : Int) : Bool :=
  match s.expires_at with
  | none => false
  | some e => e ≤ now

/-- `ttl_seconds_from_delta`: a falsy ttl (absent, or a zero timedelta)
falls back to the default; otherwise the ttl in whole seconds. -/
def ttl_seconds_from_delta (ttl : Option Int) : Int :=
  match ttl with
  | none => DEFAULT_SESSION_TTL_SECONDS
  | some t => if t = 0 then DEFAULT_SESSION_TTL_SECONDS else t

/-- The `sessionContexts` Firestore collection, keyed by device id (one
document per device, so a device has at most one lock record by
construction). -/
def SessionStore : Type := String → Option StoredSession

/-- Writing the document of one device (`document(device_id).set`). -/
def SessionStore.write (σ : SessionStore) (d : String) (doc : StoredSession) :
    SessionStore :=
  fun e => if e = d then some doc else σ e

/-- `SessionContextStore.delete_session`: remove the device's document. -/
def SessionStore.erase (σ : SessionStore) (d : String) : SessionStore :=
  fun e => if e = d then none else σ e

/-- `SessionContextStore.create_session`: build the `ModeSession` (never
passing `expires_at`, so `__post_init__` derives it) and unconditionally
upsert its payload at the device's document.  The payload covers every
modelled field, so the `merge=True` write overwrites the record. -/
def create_session (σ : SessionStore) (device_id session_type : String)
    (session_config : SessionConfig) (ttl : Option Int) (triggered_at : Int)
    (conversation : List (String × String)) (is_snooze_follow_up : Bool) :
    ModeSession × SessionStore :=
  let ttl_seconds := ttl_seconds_from_delta ttl
  let session := mkModeSession device_id session_type triggered_at ttl_seconds
    none session_config conversation is_snooze_follow_up
  (session, σ.write device_id
    { sessionType := session.session_type
      triggeredAt := session.triggered_at
      ttlSeconds := session.ttl_seconds
      expiresAt := session.expires_at
      sessionConfig := session.session_config
      conversation := session.conversation
      isSnoozeFollowUp := session.is_snooze_follow_up })

/-- `SessionContextStore._hydrate_session` on a well-typed stored record:
falsy `sessionType` falls back to `"alarm"`, falsy `ttlSeconds` to the
default, and the stored `expiresAt` is passed through (so `__post_init__`
recomputes it only when it is absent). -/
def hydrate_session (device_id : String) (doc : StoredSession) : ModeSession :=
  mkModeSession device_id
    (if doc.sessionType = "" then "alarm" else doc.sessionType)
    doc.triggeredAt
    (if doc.ttlSeconds = 0 then DEFAULT_SESSION_TTL_SECONDS else doc.ttlSeconds)
    doc.expiresAt doc.sessionConfig doc.conversation doc.isSnoozeFollowUp

/-- Outcome of the Firestore document read inside `get_session`: the `try`
around `.get(timeout=timeout)` either yields the document (or its absence)
or raises, which the `except` turns into a logged `None` return. -/
inductive ReadResult (α : Type) where
  | ok (value : α)
  | err
deriving DecidableEq

/-- `SessionContextStore.get_session` with the read outcome made explicit:
a failed read returns absent and touches nothing; an absent document returns
absent; an expired session is deleted (when `delete_if_expired`) and absent
is returned; otherwise the hydrated session is returned. -/
def get_session_read (read : ReadResult (Option StoredSession))
    (σ : SessionStore) (device_id : String) (now : Int)
    (delete_if_expired : Bool) : Option ModeSession × SessionStore :=
  match read with
  | .err => (none, σ)
  | .ok none => (none, σ)
  | .ok (some doc) =>
      let session := hydrate_session device_id doc
      if session.is_expired now then
        (none, if delete_if_expired then σ.erase device_id else σ)
      else (some session, σ)

/-- `get_session` on a successful read of the store, with the source's
default `delete_if_expired=True` (the scheduler's call). -/
def get_session (σ : SessionStore) (device_id : String) (now : Int) :
    Option ModeSession × SessionStore :=
  get_session_read (.ok (σ device_id)) σ device_id now true

/-- Python's `date.weekday()` of an epoch day index: Monday = 0 … Sunday = 6.
Epoch day 0 (1970-01-01) is a Thursday (index 3). -/
def weekdayOf (day : Int) : Fin 7 :=
  ⟨((day + 3) % 7).toNat, by omega⟩

/-- The weekday indices the schedule allows:
`allowed_days = sorted({_DAY_TO_INDEX[day] for day in alarm.schedule.days})`,
falling back to every day when the list is empty.  Sorting and deduplication
do not change membership, so the list is kept as-is when nonempty. -/
def allowed_days (days : List (Fin 7)) : List (Fin 7) :=
  if days = [] then [0, 1, 2, 3, 4, 5, 6] else days

/-- The candidate scan of `compute_next_occurrence`
(`for delta in range(0, 8)`): for each day offset in the list, if the
candidate date's weekday is allowed, build the local datetime
`candidate_date + alarm_time` and accept the first one strictly after the
reference's local value.  All values are absolute local seconds; with a
fixed-offset timezone Python's aware-`datetime` comparison agrees with
comparing these. -/
def try_deltas (allowed : List (Fin 7)) (time_local start_local start_day : Int) :
    List Nat → Option Int
  | [] => none
  | δ :: rest =>
      let day := start_day + (δ : Int)
      if weekdayOf day ∈ allowed then
        let cand := day * 86400 + time_local
        if start_local < cand then some cand
        else try_deltas allowed time_local start_local start_day rest
      else try_deltas allowed time_local start_local start_day rest

/-- `compute_next_occurrence` with the timezone resolved to the fixed offset
`off` (seconds added to UTC to obtain local time), `time_local` the parsed
"HH:MM" as seconds after local midnight and `days` the schedule's weekday
indices.  `start_utc = max(alarm.next_occurrence_utc or now, now)`; when the
0–7 day scan accepts no candidate the fallback is the reference date plus
seven days at the rule's local time. -/
def compute_next_occurrence (off time_local : Int) (days : List (Fin 7))
    (next_occurrence_utc : Option Int) (now : Int) : Int :=
  let allowed := allowed_days days
  let start_utc := max (next_occurrence_utc.getD now) now
  let start_local := start_utc + off
  let start_day := start_local / 86400
  match try_deltas allowed time_local start_local start_day (List.range 8) with
  | some cand => cand - off
  | none => (start_day + 7) * 86400 + time_local - off

/-- A UTC instant satisfies the schedule rule when its local conversion has
time-of-day equal to the rule's local time and an allowed weekday. -/
def matches_rule (off time_local : Int) (days : List (Fin 7)) (u : Int) :
    Prop :=
  (u + off) % 86400 = time_local ∧
    weekdayOf ((u + off) / 86400) ∈ allowed_days days

instance (off time_local : Int) (days : List (Fin 7)) (u : Int) :
    Decidable (matches_rule off time_local days u) := by
  unfold matches_rule; infer_instance

/-- One `(device, mode)` target of an alarm (`models.AlarmTarget`). -/
structure AlarmTarget where
  device_id : String
  mode : String
deriving DecidableEq

/-- The `AlarmDoc` of `services/alarms/models.py` as the scheduler consumes
it: the schedule is flattened to `time_local`/`days` (see the file header),
`status_on` models `status == "on"`, `tzoffset` is the resolved timezone
(`None` models `_resolve_timezone` raising for missing metadata) and
`last_processed_utc`/`doc_path` are the spec-modelled fields. -/
structure AlarmDoc where
  alarm_id : String
  user_id : String
  label : Option String
  time_local : Int
  days : List (Fin 7)
  status_on : Bool
  next_occurrence_utc : Option Int
  last_processed_utc : Option Int
  targets : List AlarmTarget
  tzoffset : Option Int
  doc_path : Option String
deriving DecidableEq

/-- `tasks.WakeRequest`: the alarm as fetched, the fired target and the
session created for it. -/
structure WakeRequest where
  alarm : AlarmDoc
  target : AlarmTarget
  session : ModeSession
deriving DecidableEq

/-- `ALARM_TIMING["session_ttl"]` (five minutes), in seconds. -/
def SESSION_TTL : Int := 300

/-- The `fetch_due_alarms` filter: `status == "on"`,
`nextOccurrenceUTC <= now + lookahead` (ISO-8601 string comparison agrees
with chronological order), and documents with a missing or empty targets
payload are dropped before an `AlarmDoc` is built. -/
def due_pred (now lookahead : Int) (a : AlarmDoc) : Bool :=
  a.status_on &&
    (match a.next_occurrence_utc with
     | some n => n ≤ now + lookahead
     | none => false) &&
    !a.targets.isEmpty

/-- The duplicate-delivery guard of `prepare_wake_requests`:
`alarm.last_processed_utc and alarm.last_processed_utc >= alarm.next_occurrence_utc`. -/
def guard_skip (a : AlarmDoc) : Bool :=
  match a.last_processed_utc, a.next_occurrence_utc with
  | some lp, some n => n ≤ lp
  | _, _ => false

/-- The inner `for target in alarm.targets` loop of `prepare_wake_requests`:
skip falsy device ids, skip targets whose device has an active session
(reads may fail per `failing`, in which case `get_session` reports absence),
otherwise create the session lock and emit a wake request.  Returns the wake
requests in order, the threaded session store and the `alarm_triggered`
flag. -/
def scan_targets (now : Int) (failing : String → Bool) (a : AlarmDoc) :
    List AlarmTarget → SessionStore →
    List WakeRequest × SessionStore × Bool
  | [], σ => ([], σ, false)
  | t :: ts, σ =>
      if t.device_id = "" then scan_targets now failing a ts σ
      else
        match
          if failing t.device_id then
            get_session_read .err σ t.device_id now true
          else get_session σ t.device_id now with
        | (some _, σ') => scan_targets now failing a ts σ'
        | (none, σ') =>
            let cfg : SessionConfig :=
              { mode := t.mode, alarmId := a.alarm_id, userId := a.user_id,
                label := a.label }
            let created :=
              create_session σ' t.device_id "alarm" cfg (some SESSION_TTL) now
                [] false
            let rest := scan_targets now failing a ts created.2
            (⟨a, t, created.1⟩ :: rest.1, rest.2.1, true)

/-- Processing of one fetched alarm by `prepare_wake_requests`: the missing
`next_occurrence_utc` check, the duplicate-delivery guard, the empty-targets
check, the target loop, and — when at least one target fired — the
advancement `mark_alarm_processed(alarm, last_processed=old nextOccurrence,
next_occurrence=compute_next_occurrence(alarm, now=now))`, skipped when the
timezone is missing (`compute_next_occurrence` raises, caught and logged) or
the document path is falsy (`mark_alarm_processed` returns without
writing). -/
def handle_alarm (now lookahead : Int) (failing : String → Bool)
    (a : AlarmDoc) (σ : SessionStore) :
    List WakeRequest × AlarmDoc × SessionStore :=
  if due_pred now lookahead a then
    match a.next_occurrence_utc with
    | none => ([], a, σ)
    | some nxt =>
        if guard_skip a then ([], a, σ)
        else if a.targets.isEmpty then ([], a, σ)
        else
          let res := scan_targets now failing a a.targets σ
          if res.2.2 then
            match a.tzoffset with
            | none => (res.1, a, res.2.1)
            | some off =>
                let nxt' := compute_next_occurrence off a.time_local a.days
                  a.next_occurrence_utc now
                match a.doc_path with
                | none => (res.1, a, res.2.1)
                | some p =>
                    if p = "" then (res.1, a, res.2.1)
                    else
                      (res.1,
                       { a with last_processed_utc := some nxt,
                                next_occurrence_utc := some nxt' },
                       res.2.1)
          else (res.1, a, res.2.1)
  else ([], a, σ)

/-- `prepare_wake_requests(now, lookahead)` over the alarm collection:
each stored alarm is fetched iff it passes the `fetch_due_alarms` filter,
processed in order with the session store threaded through, and its stored
document updated in place by the advancement write-back.  Returns the wake
requests, the updated alarm collection and the updated session store. -/
def prepare_wake_requests (now lookahead : Int) (failing : String → Bool) :
    List AlarmDoc → SessionStore →
    List WakeRequest × List AlarmDoc × SessionStore
  | [], σ => ([], [], σ)
  | a :: rest, σ =>
      let h := handle_alarm now lookahead failing a σ
      let r := prepare_wake_requests now lookahead failing rest h.2.2
      (h.1 ++ r.1, h.2.1 :: r.2.1, r.2.2)

/-- A device holds a live (non-expired) session lock: exactly the condition
under which the scheduler's `get_session` reports an active session. -/
def is_live (σ : SessionStore) (d : String) (now : Int) : Bool :=
  match σ d with
  | none => false
  | some doc => !(hydrate_session d doc).is_expired now

/-- The no-failure read oracle: every Firestore read succeeds. -/
def no_failures : String → Bool := fun _ => false

/-- Per-connection audio reassembly state
(`ConnectionHandler._process_websocket_audio`): the held-back frames keyed
by timestamp (`audio_timestamp_buffer`, a dict with unique keys), the
watermark `last_processed_timestamp` and the capacity
`max_timestamp_buffer_size`.  Frames are identified by a payload tag. -/
structure AudioState where
  buffer : List (Nat × Nat)
  last_processed_timestamp : Nat
  cap : Nat
deriving DecidableEq

/-- The state after `hasattr` initialisation: empty buffer, watermark 0,
capacity 20. -/
def audio_init : AudioState :=
  { buffer := [], last_processed_timestamp := 0, cap := 20 }

/-- The buffered entry with the smallest timestamp strictly above the
watermark — the first hit of `for ts in sorted(buffer.keys()): if ts > last`. -/
def min_entry_above (last : Nat) : List (Nat × Nat) → Option (Nat × Nat)
  | [] => none
  | e :: rest =>
      let r := min_entry_above last rest
      if last < e.1 then
        match r with
        | none => some e
        | some m => if e.1 ≤ m.1 then some e else some m
      else r

/-- `dict.pop(ts)` on a unique-keyed buffer. -/
def erase_key (k : Nat) : List (Nat × Nat) → List (Nat × Nat)
  | [] => []
  | e :: rest => if e.1 = k then rest else e :: erase_key k rest

/-- Store a frame in the dict (`buffer[timestamp] = audio_data`):
overwrite an existing key, otherwise append. -/
def store_frame (k v : Nat) : List (Nat × Nat) → List (Nat × Nat)
  | [] => [(k, v)]
  | e :: rest => if e.1 = k then (k, v) :: rest else e :: store_frame k v rest

/-- The `while processed_any` flush loop: repeatedly pop and emit the
smallest buffered timestamp above the watermark, advancing the watermark,
until none remains.  Each round removes one entry, so the buffer length
bounds the rounds (`fuel`). -/
def flush_loop : Nat → List (Nat × Nat) → Nat →
    List Nat × List (Nat × Nat) × Nat
  | 0, buf, last => ([], buf, last)
  | fuel + 1, buf, last =>
      match min_entry_above last buf with
      | none => ([], buf, last)
      | some e =>
          let r := flush_loop fuel (erase_key e.1 buf) e.1
          (e.2 :: r.1, r.2)

/-- `_process_websocket_audio(audio_data, timestamp)`: a frame at or above
the watermark is emitted at once, the watermark advances and the flush loop
runs; a late frame is held back while there is capacity and otherwise
emitted unordered.  Returns the new state and the frames put on
`asr_audio_queue`, in order. -/
def process_websocket_audio (st : AudioState) (timestamp frame : Nat) :
    AudioState × List Nat :=
  if st.last_processed_timestamp ≤ timestamp then
    let r := flush_loop st.buffer.length st.buffer timestamp
    ({ st with buffer := r.2.1, last_processed_timestamp := r.2.2 },
     frame :: r.1)
  else
    if st.buffer.length < st.cap then
      ({ st with buffer := store_frame timestamp frame st.buffer }, [])
    else (st, [frame])

/-- Feed a sequence of `(timestamp, frame)` arrivals through the buffer,
concatenating the emissions. -/
def feed_frames (st : AudioState) : List (Nat × Nat) → AudioState × List Nat
  | [] => (st, [])
  | f :: fs =>
      let r := process_websocket_audio st f.1 f.2
      let rest := feed_frames r.1 fs
      (rest.1, r.2 ++ rest.2)

/-- The delay selection of `ConnectionHandler._schedule_followup`:
`delays[count]` when `followup_delays` is a list and the index is in range,
otherwise `int(self.followup_delay or 25) + count * 10`. -/
def next_followup_delay (followup_delays : Option (List Int))
    (followup_count : Nat) (followup_delay : Int) : Int :=
  match followup_delays with
  | some delays =>
      if h : followup_count < delays.length then delays.get ⟨followup_count, h⟩
      else (if followup_delay = 0 then 25 else followup_delay) +
        (followup_count : Int) * 10
  | none =>
      (if followup_delay = 0 then 25 else followup_delay) +
        (followup_count : Int) * 10

/-- An asyncio follow-up task handle: whether `cancel()` has been called and
whether the task is `done()`. -/
structure FollowupTask where
  cancelled : Bool
  done : Bool
deriving DecidableEq

/-- The follow-up state shared between `chat` and `_followup_trigger`: the
monotone `followup_user_has_responded` latch and the pending task handle. -/
structure FollowupLatchState where
  user_has_responded : Bool
  task : Option FollowupTask
deriving DecidableEq

/-- The follow-up effect of `ConnectionHandler.chat` (its first block):
`if query and is_user_input`, set the latch and cancel the pending
not-yet-done task; otherwise (empty query or a server-synthesized turn)
leave the latch and task untouched. -/
def chat_followup_gate (query : String) (is_user_input : Bool)
    (st : FollowupLatchState) : FollowupLatchState :=
  if query ≠ "" ∧ is_user_input then
    { user_has_responded := true
      task :=
        match st.task with
        | some t => if !t.done then some { t with cancelled := true } else some t
        | none => none }
  else st

/-- The environment one 0.5 s poll tick of `_followup_trigger` observes:
whether the client is speaking, whether the LLM turn has finished, and
whether the measured silence window has reached the target delay. -/
structure PollEnv where
  client_is_speaking : Bool
  llm_finish_task : Bool
  silence_reached : Bool
deriving DecidableEq

/-- Outcome of one poll tick of `_followup_trigger`'s `while True` body:
the latch or client speech raises `CancelledError`, an unfinished LLM turn
keeps waiting, and a long-enough silence fires the follow-up. -/
inductive PollOutcome where
  | cancelled
  | keep_waiting
  | fired
deriving DecidableEq

/-- One poll tick of `_followup_trigger`, in the source's check order. -/
def followup_poll_step (st : FollowupLatchState) (env : PollEnv) :
    PollOutcome :=
  if st.user_has_responded then .cancelled
  else if env.client_is_speaking then .cancelled
  else if !env.llm_finish_task then .keep_waiting
  else if env.silence_reached then .fired
  else .keep_waiting

/-- Events interleaved on one connection: a `chat` turn, a scheduling of a
fresh follow-up task (`_schedule_followup` replacing the handle), or one
poll tick of the pending timer. -/
inductive ConnEvent where
  | chat (query : String) (is_user_input : Bool)
  | schedule
  | poll (env : PollEnv)

/-- One step of the connection's follow-up machine.  A poll tick runs only
when a pending task exists and is neither cancelled nor done (asyncio never
resumes a cancelled task); the returned flag says whether the follow-up
fired (submitted its synthetic turn). -/
def conn_step (st : FollowupLatchState) :
    ConnEvent → FollowupLatchState × Bool
  | .chat q u => (chat_followup_gate q u st, false)
  | .schedule =>
      ({ st with task := some { cancelled := false, done := false } }, false)
  | .poll env =>
      match st.task with
      | none => (st, false)
      | some t =>
          if t.cancelled || t.done then (st, false)
          else
            match followup_poll_step st env with
            | .fired => (st, true)
            | .cancelled =>
                ({ st with task := some { t with cancelled := true } }, false)
            | .keep_waiting => (st, false)

/-- Whether any follow-up fires along a sequence of events. -/
def run_fires (st : FollowupLatchState) : List ConnEvent → Bool
  | [] => false
  | e :: es =>
      let r := conn_step st e
      r.2 || run_fires r.1 es

/-- The empty session-context collection. -/
def empty_store : SessionStore := fun _ => none

/-- A sample wake `sessionConfig`. -/
def sample_cfg : SessionConfig :=
  { mode := "morning_alarm", alarmId := "alarm-123", userId := "user-xyz",
    label := some "Morning Wake" }

/-- A sample stored session document expiring at instant 100. -/
def sample_doc : StoredSession :=
  { sessionType := "alarm", triggeredAt := 0, ttlSeconds := 100,
    expiresAt := some 100, sessionConfig := sample_cfg, conversation := [],
    isSnoozeFollowUp := false }

/-- A store holding only `sample_doc` for device `"dev-1"`. -/
def sample_store : SessionStore :=
  fun d => if d = "dev-1" then some sample_doc else none

/-- A daily 07:00-UTC alarm (empty weekday list) targeting `"dev-7"`, with
`nextOccurrenceUTC` = Monday 1970-01-05 07:00 UTC, used to exercise the
late-scan advancement. -/
def sample_alarm : AlarmDoc :=
  { alarm_id := "alarm-123", user_id := "user-xyz", label := some "Morning Wake",
    time_local := 25200, days := [], status_on := true,
    next_occurrence_utc := some 370800, last_processed_utc := none,
    targets := [{ device_id := "dev-7", mode := "morning_alarm" }],
    tzoffset := some 0, doc_path := some "users/user-xyz/alarms/alarm-123" }

/-- A Monday-only alarm (`days = [Mon]`) at 07:00 local in a fixed UTC−8
timezone, with `nextOccurrenceUTC` = Monday 1970-01-05 15:00 UTC (= local
Monday 07:00), used for the recurrence example. -/
def monday_alarm : AlarmDoc :=
  { alarm_id := "alarm-mon", user_id := "user-xyz", label := none,
    time_local := 25200, days := [0], status_on := true,
    next_occurrence_utc := some 399600, last_processed_utc := none,
    targets := [{ device_id := "dev-1", mode := "morning_alarm" }],
    tzoffset := some (-28800), doc_path := some "users/user-xyz/alarms/alarm-mon" }

/-- The sample alarm with device `"dev-1"` as its only target. -/
def single_alarm : AlarmDoc :=
  { sample_alarm with
    targets := [{ device_id := "dev-1", mode := "morning_alarm" }] }

/-- The sample alarm guarded by `lastProcessedUtc = nextOccurrenceUtc`. -/
def guarded_alarm : AlarmDoc :=
  { sample_alarm with last_processed_utc := some 370800 }

/-- A dead (absent or expired) lock makes `get_session` report absence. -/
theorem get_session_none_of_dead (σ : SessionStore) (d : String) (now : Int)
    (h : is_live σ d now = false) : (get_session σ d now).1 = none := by
  unfold is_live at h
  unfold get_session get_session_read
  cases hσ : σ d with
  | none => rfl
  | some doc =>
      rw [hσ] at h
      simp at h
      simp [h]

/-- A live lock makes `get_session` return it and leave the store alone. -/
theorem get_session_of_live (σ : SessionStore) (d : String) (now : Int)
    (h : is_live σ d now = true) :
    (get_session σ d now).2 = σ ∧ ∃ s, (get_session σ d now).1 = some s := by
  unfold is_live at h
  unfold get_session get_session_read
  cases hσ : σ d with
  | none => rw [hσ] at h; exact absurd h (by simp)
  | some doc =>
      rw [hσ] at h
      simp at h
      simp [h]

/-- Contrapositive: a returned session witnesses a live lock. -/
theorem get_session_some_live (σ : SessionStore) (d : String) (now : Int)
    (s : ModeSession) (h : (get_session σ d now).1 = some s) :
    is_live σ d now = true := by
  by_contra hc
  rw [get_session_none_of_dead σ d now (by simpa using hc)] at h
  exact Option.noConfusion h

/-- `get_session` never changes another device's document (its only write is
the lazy-expiry delete of the read device). -/
theorem get_session_snd_frame (σ : SessionStore) (d : String) (now : Int)
    (e : String) (he : e ≠ d) : (get_session σ d now).2 e = σ e := by
  unfold get_session get_session_read
  cases hσ : σ d with
  | none => rfl
  | some doc =>
      by_cases hexp : (hydrate_session d doc).is_expired now = true
      · simp [hexp, SessionStore.erase, he]
      · simp [hexp]

/-- `is_live` only looks at the device's own document. -/
theorem is_live_congr (σ σ' : SessionStore) (d : String) (now : Int)
    (h : σ' d = σ d) : is_live σ' d now = is_live σ d now := by
  unfold is_live
  rw [h]

/-- Unfolding of the target loop at a target with a usable device id, under
the no-failure read oracle. -/
theorem scan_targets_cons_ne (now : Int) (a : AlarmDoc) (t : AlarmTarget)
    (ts : List AlarmTarget) (σ : SessionStore) (he : ¬ t.device_id = "") :
    scan_targets now no_failures a (t :: ts) σ =
      match get_session σ t.device_id now with
      | (some _, σ') => scan_targets now no_failures a ts σ'
      | (none, σ') =>
          let created := create_session σ' t.device_id "alarm"
            { mode := t.mode, alarmId := a.alarm_id, userId := a.user_id,
              label := a.label } (some SESSION_TTL) now [] false
          let rest := scan_targets now no_failures a ts created.2
          (⟨a, t, created.1⟩ :: rest.1, rest.2.1, true) := by
  have hnf : ¬ no_failures t.device_id = true := fun hcon =>
    Bool.noConfusion hcon
  rw [scan_targets, if_neg he, if_neg hnf]

/-- The session the scheduler just created is live at scan time: its
`expiresAt` is `now + SESSION_TTL` with a positive ttl. -/
theorem created_session_live (σ : SessionStore) (e : String)
    (cfg : SessionConfig) (now : Int) :
    is_live (create_session σ e "alarm" cfg (some SESSION_TTL) now [] false).2
      e now = true := by
  have hkey : (create_session σ e "alarm" cfg (some SESSION_TTL) now []
      false).2 e =
      some { sessionType := "alarm", triggeredAt := now, ttlSeconds := 300,
             expiresAt := some (now + 300), sessionConfig := cfg,
             conversation := [], isSnoozeFollowUp := false } := by
    simp [create_session, SessionStore.write, mkModeSession,
      ttl_seconds_from_delta, SESSION_TTL, DEFAULT_SESSION_TTL_SECONDS]
  unfold is_live
  rw [hkey]
  simp [hydrate_session, mkModeSession, ModeSession.is_expired,
    DEFAULT_SESSION_TTL_SECONDS]

/-- The frame part of `create_session`: only the target device's document
changes. -/
theorem create_session_frame (σ : SessionStore) (e d : String)
    (cfg : SessionConfig) (now : Int) (hne : d ≠ e) :
    (create_session σ e "alarm" cfg (some SESSION_TTL) now [] false).2 d =
      σ d := by
  simp [create_session, SessionStore.write, hne]

/-- A live lock survives the target loop untouched: the loop only deletes
expired locks and only creates sessions for devices `get_session` reported
free. -/
theorem scan_targets_preserves_live (now : Int) (a : AlarmDoc) :
    ∀ (ts : List AlarmTarget) (σ : SessionStore) (d : String),
      is_live σ d now = true →
      (scan_targets now no_failures a ts σ).2.1 d = σ d := by
  intro ts
  induction ts with
  | nil => intro σ d h; rfl
  | cons t0 ts ih =>
      intro σ d h
      by_cases he : t0.device_id = ""
      · simp only [scan_targets, if_pos he]
        exact ih σ d h
      · rw [scan_targets_cons_ne now a t0 ts σ he]
        rcases hg : get_session σ t0.device_id now with ⟨o, σ'⟩
        cases o with
        | some s =>
            have hl0 := get_session_some_live σ t0.device_id now s
              (by rw [hg])
            have hσ' : σ' = σ := by
              have h2 := (get_session_of_live σ t0.device_id now hl0).1
              rw [hg] at h2
              exact h2
            rw [hσ']
            exact ih σ d h
        | none =>
            have hnd : d ≠ t0.device_id := by
              intro hde
              obtain ⟨-, s, hs⟩ := get_session_of_live σ t0.device_id now
                (hde ▸ h)
              rw [hg] at hs
              exact Option.noConfusion hs
            have hσ'd : σ' d = σ d := by
              have h2 := get_session_snd_frame σ t0.device_id now d hnd
              rw [hg] at h2
              exact h2
            show (scan_targets now no_failures a ts
              (create_session σ' t0.device_id "alarm"
                { mode := t0.mode, alarmId := a.alarm_id, userId := a.user_id,
                  label := a.label } (some SESSION_TTL) now [] false).2).2.1
                d = σ d
            have hcd : (create_session σ' t0.device_id "alarm"
                { mode := t0.mode, alarmId := a.alarm_id, userId := a.user_id,
                  label := a.label } (some SESSION_TTL) now [] false).2 d =
                σ d := by
              rw [create_session_frame σ' t0.device_id d _ now hnd, hσ'd]
            exact (ih _ d ((is_live_congr σ _ d now hcd).trans h)).trans hcd

/-- After the target loop, every target with a usable device id holds a live
lock: it either already had one (which survives) or just got one. -/
theorem scan_targets_makes_live (now : Int) (a : AlarmDoc) :
    ∀ (ts : List AlarmTarget) (σ : SessionStore) (t : AlarmTarget),
      t ∈ ts → t.device_id ≠ "" →
      is_live (scan_targets now no_failures a ts σ).2.1 t.device_id now =
        true := by
  intro ts
  induction ts with
  | nil => intro σ t ht _; exact absurd ht (List.not_mem_nil t)
  | cons t0 ts ih =>
      intro σ t ht hne
      by_cases he : t0.device_id = ""
      · simp only [scan_targets, if_pos he]
        rcases List.mem_cons.mp ht with heq | hmem
        · exact absurd (heq ▸ he) hne
        · exact ih σ t hmem hne
      · rw [scan_targets_cons_ne now a t0 ts σ he]
        rcases hg : get_session σ t0.device_id now with ⟨o, σ'⟩
        cases o with
        | some s =>
            have hl0 := get_session_some_live σ t0.device_id now s
              (by rw [hg])
            have hσ' : σ' = σ := by
              have h2 := (get_session_of_live σ t0.device_id now hl0).1
              rw [hg] at h2
              exact h2
            rw [hσ']
            rcases List.mem_cons.mp ht with heq | hmem
            · rw [heq]
              exact (is_live_congr σ _ t0.device_id now
                (scan_targets_preserves_live now a ts σ t0.device_id
                  hl0)).trans hl0
            · exact ih σ t hmem hne
        | none =>
            show is_live (scan_targets now no_failures a ts
              (create_session σ' t0.device_id "alarm"
                { mode := t0.mode, alarmId := a.alarm_id, userId := a.user_id,
                  label := a.label } (some SESSION_TTL) now [] false).2).2.1
                t.device_id now = true
            rcases List.mem_cons.mp ht with heq | hmem
            · rw [heq]
              have hl := created_session_live σ' t0.device_id
                { mode := t0.mode, alarmId := a.alarm_id, userId := a.user_id,
                  label := a.label } now
              exact (is_live_congr _ _ t0.device_id now
                (scan_targets_preserves_live now a ts _ t0.device_id
                  hl)).trans hl
            · exact ih _ t hmem hne

/-- When every usable target already holds a live lock the target loop is a
no-op: no wake requests, no store change, nothing fired. -/
theorem scan_targets_noop_of_live (now : Int) (a : AlarmDoc) :
    ∀ (ts : List AlarmTarget) (σ : SessionStore),
      (∀ t ∈ ts, t.device_id ≠ "" → is_live σ t.device_id now = true) →
      scan_targets now no_failures a ts σ = ([], σ, false) := by
  intro ts
  induction ts with
  | nil => intro σ _; rfl
  | cons t0 ts ih =>
      intro σ h
      by_cases he : t0.device_id = ""
      · simp only [scan_targets, if_pos he]
        exact ih σ (fun t ht hn => h t (List.mem_cons_of_mem t0 ht) hn)
      · rw [scan_targets_cons_ne now a t0 ts σ he]
        have hl := h t0 (List.mem_cons_self t0 ts) he
        rcases hg : get_session σ t0.device_id now with ⟨o, σ'⟩
        cases o with
        | some s =>
            have hσ' : σ' = σ := by
              have h2 := (get_session_of_live σ t0.device_id now hl).1
              rw [hg] at h2
              exact h2
            rw [hσ']
            exact ih σ (fun t ht hn => h t (List.mem_cons_of_mem t0 ht) hn)
        | none =>
            obtain ⟨-, s, hs⟩ := get_session_of_live σ t0.device_id now hl
            rw [hg] at hs
            exact Option.noConfusion hs

/-- The target loop emits no wake request for a device that holds a live
lock. -/
theorem scan_targets_no_wake_for_live (now : Int) (a : AlarmDoc) :
    ∀ (ts : List AlarmTarget) (σ : SessionStore) (d : String),
      is_live σ d now = true →
      ∀ r ∈ (scan_targets now no_failures a ts σ).1,
        r.target.device_id ≠ d := by
  intro ts
  induction ts with
  | nil => intro σ d _ r hr; exact absurd hr (List.not_mem_nil r)
  | cons t0 ts ih =>
      intro σ d h r hr
      by_cases he : t0.device_id = ""
      · simp only [scan_targets, if_pos he] at hr
        exact ih σ d h r hr
      · rw [scan_targets_cons_ne now a t0 ts σ he] at hr
        rcases hg : get_session σ t0.device_id now with ⟨o, σ'⟩
        rw [hg] at hr
        cases o with
        | some s =>
            have hl0 := get_session_some_live σ t0.device_id now s
              (by rw [hg])
            have hσ' : σ' = σ := by
              have h2 := (get_session_of_live σ t0.device_id now hl0).1
              rw [hg] at h2
              exact h2
            rw [hσ'] at hr
            exact ih σ d h r hr
        | none =>
            have hnd : d ≠ t0.device_id := by
              intro hde
              obtain ⟨-, s, hs⟩ := get_session_of_live σ t0.device_id now
                (hde ▸ h)
              rw [hg] at hs
              exact Option.noConfusion hs
            have hσ'd : σ' d = σ d := by
              have h2 := get_session_snd_frame σ t0.device_id now d hnd
              rw [hg] at h2
              exact h2
            have hr2 : r = ⟨a, t0, (create_session σ' t0.device_id "alarm"
                { mode := t0.mode, alarmId := a.alarm_id, userId := a.user_id,
                  label := a.label } (some SESSION_TTL) now [] false).1⟩ ∨
                r ∈ (scan_targets now no_failures a ts
                  (create_session σ' t0.device_id "alarm"
                    { mode := t0.mode, alarmId := a.alarm_id,
                      userId := a.user_id, label := a.label }
                    (some SESSION_TTL) now [] false).2).1 :=
              List.mem_cons.mp hr
            rcases hr2 with heq | hmem
            · rw [heq]
              exact fun hc => hnd (hc ▸ rfl)
            · have hcd : (create_session σ' t0.device_id "alarm"
                  { mode := t0.mode, alarmId := a.alarm_id,
                    userId := a.user_id, label := a.label }
                  (some SESSION_TTL) now [] false).2 d = σ d := by
                rw [create_session_frame σ' t0.device_id d _ now hnd, hσ'd]
              exact ih _ d ((is_live_congr σ _ d now hcd).trans h) r hmem


/-- A fetched alarm has `status=on`, a due `nextOccurrenceUTC` and a
nonempty target list. -/
theorem due_pred_parts (now la : Int) (a : AlarmDoc)
    (h : due_pred now la a = true) :
    a.status_on = true ∧
      (∃ n, a.next_occurrence_utc = some n ∧ n ≤ now + la) ∧
      a.targets.isEmpty = false := by
  unfold due_pred at h
  cases hnx : a.next_occurrence_utc with
  | none => rw [hnx] at h; simp at h
  | some n =>
      rw [hnx] at h
      simp only [Bool.and_eq_true, decide_eq_true_eq, Bool.not_eq_true'] at h
      exact ⟨h.1.1, ⟨n, rfl, h.1.2⟩, h.2⟩

/-- An alarm the fetch filter rejects is not processed. -/
theorem handle_alarm_not_due (now la : Int) (f : String → Bool) (a : AlarmDoc)
    (σ : SessionStore) (h : due_pred now la a = false) :
    handle_alarm now la f a σ = ([], a, σ) := by
  unfold handle_alarm
  rw [if_neg (by simp [h])]

/-- The duplicate-delivery guard skips the alarm entirely: no wake request,
no session created, no advancement. -/
theorem handle_alarm_guard_skip (now la : Int) (f : String → Bool)
    (a : AlarmDoc) (σ : SessionStore) (h : guard_skip a = true) :
    handle_alarm now la f a σ = ([], a, σ) := by
  unfold handle_alarm
  by_cases hdue : due_pred now la a = true
  · rw [if_pos hdue]
    cases hnx : a.next_occurrence_utc with
    | none => rfl
    | some n => simp [h]
  · rw [if_neg hdue]

/-- When the fetch filter and the guard let the alarm through, the wake
requests and the session store come from the target loop, and the alarm's
targets are unchanged by the advancement write. -/
theorem handle_alarm_run (now la : Int) (f : String → Bool) (a : AlarmDoc)
    (σ : SessionStore) (hdue : due_pred now la a = true)
    (hg : guard_skip a = false) :
    (handle_alarm now la f a σ).1 = (scan_targets now f a a.targets σ).1 ∧
    (handle_alarm now la f a σ).2.2 =
      (scan_targets now f a a.targets σ).2.1 ∧
    (handle_alarm now la f a σ).2.1.targets = a.targets := by
  obtain ⟨-, ⟨n, hnx, -⟩, hemp⟩ := due_pred_parts now la a hdue
  by_cases hfired : (scan_targets now f a a.targets σ).2.2 = true
  · cases htz : a.tzoffset with
    | none => simp [handle_alarm, hdue, hnx, hg, hemp, hfired, htz]
    | some off =>
        cases hdp : a.doc_path with
        | none => simp [handle_alarm, hdue, hnx, hg, hemp, hfired, htz, hdp]
        | some p =>
            by_cases hp : p = "" <;>
              simp [handle_alarm, hdue, hnx, hg, hemp, hfired, htz, hdp, hp]
  · simp [handle_alarm, hdue, hnx, hg, hemp, hfired]

/-- When no target fired, the alarm document is left unadvanced. -/
theorem handle_alarm_not_fired (now la : Int) (f : String → Bool)
    (a : AlarmDoc) (σ : SessionStore) (hdue : due_pred now la a = true)
    (hg : guard_skip a = false)
    (hnf : (scan_targets now f a a.targets σ).2.2 = false) :
    handle_alarm now la f a σ =
      ((scan_targets now f a a.targets σ).1, a,
       (scan_targets now f a a.targets σ).2.1) := by
  obtain ⟨-, ⟨n, hnx, -⟩, hemp⟩ := due_pred_parts now la a hdue
  simp [handle_alarm, hdue, hnx, hg, hemp, hnf]

/-- When at least one target fired and both the timezone and the document
path are usable, the alarm is advanced:
`lastProcessedUtc := old nextOccurrenceUtc` and
`nextOccurrenceUtc := compute_next_occurrence(alarm, now=now)`. -/
theorem handle_alarm_advanced (now la : Int) (f : String → Bool)
    (a : AlarmDoc) (σ : SessionStore) (n off : Int) (p : String)
    (hdue : due_pred now la a = true) (hg : guard_skip a = false)
    (hnx : a.next_occurrence_utc = some n) (htz : a.tzoffset = some off)
    (hdp : a.doc_path = some p) (hp : p ≠ "")
    (hfired : (scan_targets now f a a.targets σ).2.2 = true) :
    handle_alarm now la f a σ =
      ((scan_targets now f a a.targets σ).1,
       { a with last_processed_utc := some n,
                next_occurrence_utc := some (compute_next_occurrence off
                  a.time_local a.days a.next_occurrence_utc now) },
       (scan_targets now f a a.targets σ).2.1) := by
  obtain ⟨-, -, hemp⟩ := due_pred_parts now la a hdue
  simp [handle_alarm, hdue, hnx, hg, hemp, hfired, htz, hdp, hp]

/-- The wake requests of one alarm's processing are those of its target
loop, or none at all. -/
theorem handle_alarm_fst (now la : Int) (f : String → Bool) (a : AlarmDoc)
    (σ : SessionStore) :
    (handle_alarm now la f a σ).1 = [] ∨
    (handle_alarm now la f a σ).1 = (scan_targets now f a a.targets σ).1 := by
  by_cases hdue : due_pred now la a = true
  · by_cases hg : guard_skip a = true
    · rw [handle_alarm_guard_skip now la f a σ hg]
      exact Or.inl rfl
    · exact Or.inr (handle_alarm_run now la f a σ hdue (by simpa using hg)).1
  · rw [handle_alarm_not_due now la f a σ (by simpa using hdue)]
    exact Or.inl rfl

/-- A live lock survives one alarm's processing untouched. -/
theorem handle_alarm_preserves_live (now la : Int) (a : AlarmDoc)
    (σ : SessionStore) (d : String) (h : is_live σ d now = true) :
    (handle_alarm now la no_failures a σ).2.2 d = σ d := by
  by_cases hdue : due_pred now la a = true
  · by_cases hg : guard_skip a = true
    · rw [handle_alarm_guard_skip now la no_failures a σ hg]
    · rw [(handle_alarm_run now la no_failures a σ hdue
        (by simpa using hg)).2.1]
      exact scan_targets_preserves_live now a a.targets σ d h
  · rw [handle_alarm_not_due now la no_failures a σ (by simpa using hdue)]

/-- After one alarm's processing, an output alarm that would still be
fetched and not guard-skipped has all its usable targets holding live
locks. -/
theorem handle_alarm_post (now la : Int) (a : AlarmDoc) (σ : SessionStore)
    (hdue' : due_pred now la (handle_alarm now la no_failures a σ).2.1 = true)
    (hg' : guard_skip (handle_alarm now la no_failures a σ).2.1 = false) :
    ∀ t ∈ (handle_alarm now la no_failures a σ).2.1.targets,
      t.device_id ≠ "" →
      is_live (handle_alarm now la no_failures a σ).2.2 t.device_id now =
        true := by
  intro t ht hne
  by_cases hdue : due_pred now la a = true
  · by_cases hg : guard_skip a = true
    · rw [handle_alarm_guard_skip now la no_failures a σ hg] at hg'
      exact absurd hg' (by simp [hg])
    · have hrun := handle_alarm_run now la no_failures a σ hdue
        (by simpa using hg)
      rw [hrun.2.1]
      rw [hrun.2.2] at ht
      exact scan_targets_makes_live now a a.targets σ t ht hne
  · rw [handle_alarm_not_due now la no_failures a σ (by simpa using hdue)]
      at hdue'
    exact absurd hdue' (by simpa using hdue)

/-- A live lock survives the whole scan untouched. -/
theorem scan_preserves_live (now la : Int) :
    ∀ (alarms : List AlarmDoc) (σ : SessionStore) (d : String),
      is_live σ d now = true →
      (prepare_wake_requests now la no_failures alarms σ).2.2 d = σ d := by
  intro alarms
  induction alarms with
  | nil => intro σ d _; rfl
  | cons a rest ih =>
      intro σ d h
      show (prepare_wake_requests now la no_failures rest
        (handle_alarm now la no_failures a σ).2.2).2.2 d = σ d
      have h1 := handle_alarm_preserves_live now la a σ d h
      exact (ih _ d ((is_live_congr σ _ d now h1).trans h)).trans h1

/-- After a scan, every stored alarm that would still be fetched and not
guard-skipped has all its usable targets holding live locks. -/
theorem scan_post (now la : Int) :
    ∀ (alarms : List AlarmDoc) (σ : SessionStore),
      ∀ a' ∈ (prepare_wake_requests now la no_failures alarms σ).2.1,
        due_pred now la a' = true → guard_skip a' = false →
        ∀ t ∈ a'.targets, t.device_id ≠ "" →
          is_live (prepare_wake_requests now la no_failures alarms σ).2.2
            t.device_id now = true := by
  intro alarms
  induction alarms with
  | nil => intro σ a' ha'; exact absurd ha' (List.not_mem_nil a')
  | cons a rest ih =>
      intro σ a' ha' hdue' hg' t ht hne
      have hmem : a' = (handle_alarm now la no_failures a σ).2.1 ∨
          a' ∈ (prepare_wake_requests now la no_failures rest
            (handle_alarm now la no_failures a σ).2.2).2.1 :=
        List.mem_cons.mp ha'
      show is_live (prepare_wake_requests now la no_failures rest
        (handle_alarm now la no_failures a σ).2.2).2.2 t.device_id now = true
      rcases hmem with heq | hmem
      · have hlive := handle_alarm_post now la a σ (heq ▸ hdue') (heq ▸ hg')
          t (heq ▸ ht) hne
        exact (is_live_congr _ _ t.device_id now
          (scan_preserves_live now la rest _ t.device_id hlive)).trans hlive
      · exact ih _ a' hmem hdue' hg' t ht hne

/-- When every stored alarm that would be fetched and not guard-skipped
already has all its usable targets locked, the scan is a no-op: no wake
requests, no store change, no alarm change. -/
theorem scan_noop_of_post (now la : Int) :
    ∀ (alarms : List AlarmDoc) (σ : SessionStore),
      (∀ a ∈ alarms, due_pred now la a = true → guard_skip a = false →
        ∀ t ∈ a.targets, t.device_id ≠ "" →
          is_live σ t.device_id now = true) →
      prepare_wake_requests now la no_failures alarms σ =
        ([], alarms, σ) := by
  intro alarms
  induction alarms with
  | nil => intro σ _; rfl
  | cons a rest ih =>
      intro σ h
      have hhandle : handle_alarm now la no_failures a σ = ([], a, σ) := by
        by_cases hdue : due_pred now la a = true
        · by_cases hg : guard_skip a = true
          · exact handle_alarm_guard_skip now la no_failures a σ hg
          · have hg0 : guard_skip a = false := by simpa using hg
            have hnoop := scan_targets_noop_of_live now a a.targets σ
              (h a (List.mem_cons_self a rest) hdue hg0)
            have hnf := handle_alarm_not_fired now la no_failures a σ hdue
              hg0 (by rw [hnoop])
            rw [hnf, hnoop]
        · exact handle_alarm_not_due now la no_failures a σ
            (by simpa using hdue)
      have hstep : prepare_wake_requests now la no_failures (a :: rest) σ =
          ((handle_alarm now la no_failures a σ).1 ++
             (prepare_wake_requests now la no_failures rest
               (handle_alarm now la no_failures a σ).2.2).1,
           (handle_alarm now la no_failures a σ).2.1 ::
             (prepare_wake_requests now la no_failures rest
               (handle_alarm now la no_failures a σ).2.2).2.1,
           (prepare_wake_requests now la no_failures rest
             (handle_alarm now la no_failures a σ).2.2).2.2) := rfl
      rw [hstep, hhandle]
      rw [ih σ (fun a' ha' => h a' (List.mem_cons_of_mem a ha'))]
      rfl

/-- The scan emits no wake request targeting a device that holds a live
lock. -/
theorem scan_no_wake_for_live (now la : Int) :
    ∀ (alarms : List AlarmDoc) (σ : SessionStore) (d : String),
      is_live σ d now = true →
      ∀ r ∈ (prepare_wake_requests now la no_failures alarms σ).1,
        r.target.device_id ≠ d := by
  intro alarms
  induction alarms with
  | nil => intro σ d _ r hr; exact absurd hr (List.not_mem_nil r)
  | cons a rest ih =>
      intro σ d h r hr
      have hsplit : r ∈ (handle_alarm now la no_failures a σ).1 ∨
          r ∈ (prepare_wake_requests now la no_failures rest
            (handle_alarm now la no_failures a σ).2.2).1 :=
        List.mem_append.mp hr
      rcases hsplit with hmem | hmem
      · rcases handle_alarm_fst now la no_failures a σ with hf | hf
        · rw [hf] at hmem
          exact absurd hmem (List.not_mem_nil r)
        · rw [hf] at hmem
          exact scan_targets_no_wake_for_live now a a.targets σ d h r hmem
      · have h1 := handle_alarm_preserves_live now la a σ d h
        exact ih _ d ((is_live_congr σ _ d now h1).trans h) r hmem

/-- The ttl stored by `create_session` is never zero: a falsy ttl falls back
to the (nonzero) default and otherwise the nonzero value is kept. -/
theorem ttl_seconds_from_delta_ne_zero (ttl : Option Int) :
    ttl_seconds_from_delta ttl ≠ 0 := by
  cases ttl with
  | none => simp [ttl_seconds_from_delta, DEFAULT_SESSION_TTL_SECONDS]
  | some t =>
      by_cases h : t = 0 <;>
        simp [ttl_seconds_from_delta, DEFAULT_SESSION_TTL_SECONDS, h]

/-- C4: `create_session` returns the lock and unconditionally upserts
(last-writer-wins, whatever the store previously held at that device) a
record with `sessionType`, `triggeredAt`, `ttlSeconds`,
`expiresAt = triggeredAt + ttlSeconds` (never overridden by this caller),
`sessionConfig`, `conversation` and `isSnoozeFollowUp`; other devices'
records are untouched. -/
theorem create_session_spec (σ : SessionStore) (device_id session_type : String)
    (cfg : SessionConfig) (ttl : Option Int) (triggered_at : Int)
    (conversation : List (String × String)) (snooze : Bool) :
    (create_session σ device_id session_type cfg ttl triggered_at conversation
        snooze).2 device_id =
      some { sessionType := session_type, triggeredAt := triggered_at,
             ttlSeconds := ttl_seconds_from_delta ttl,
             expiresAt := some (triggered_at + ttl_seconds_from_delta ttl),
             sessionConfig := cfg, conversation := conversation,
             isSnoozeFollowUp := snooze } ∧
    (∀ e, e ≠ device_id →
      (create_session σ device_id session_type cfg ttl triggered_at
        conversation snooze).2 e = σ e) ∧
    (create_session σ device_id session_type cfg ttl triggered_at conversation
        snooze).1 =
      { device_id := device_id, session_type := session_type,
        triggered_at := triggered_at,
        ttl_seconds := ttl_seconds_from_delta ttl,
        expires_at := some (triggered_at + ttl_seconds_from_delta ttl),
        session_config := cfg, conversation := conversation,
        is_snooze_follow_up := snooze } := by
  have httl := ttl_seconds_from_delta_ne_zero ttl
  refine ⟨?_, fun e he => ?_, ?_⟩
  · simp [create_session, mkModeSession, SessionStore.write, httl]
  · simp [create_session, SessionStore.write, he]
  · simp [create_session, mkModeSession, httl]

/-- C4 witness: the specification of `create_session` instantiated on the
sample store (the `∀ e, e ≠ device_id → …` frame clause discharged at
`"dev-other"`). -/
theorem create_session_spec_witness :
    (create_session sample_store "dev-1" "alarm" sample_cfg (some 300) 1000 []
        false).2 "dev-other" = sample_store "dev-other" :=
  (create_session_spec sample_store "dev-1" "alarm" sample_cfg (some 300) 1000
    [] false).2.1 "dev-other" (by decide)

/-- C5: `get_session` with a stored record whose `expiresAt` is after `now`
returns the (hydrated) lock and leaves the store alone; with
`expiresAt <= now` it deletes the device's record as a side effect of the
read and returns absent; with no record it returns absent without side
effects. -/
theorem get_session_lazy_expiry (σ : SessionStore) (d : String)
    (now : Int) :
    (∀ doc e, σ d = some doc → doc.expiresAt = some e →
      (hydrate_session d doc).expires_at = some e ∧
      (now < e → get_session σ d now = (some (hydrate_session d doc), σ)) ∧
      (e ≤ now → get_session σ d now = (none, σ.erase d))) ∧
    (σ d = none → get_session σ d now = (none, σ)) := by
  refine ⟨fun doc e hd he => ?_, fun hd => ?_⟩
  · have hexp : (hydrate_session d doc).expires_at = some e := by
      simp [hydrate_session, mkModeSession, he]
    refine ⟨hexp, fun hlt => ?_, fun hle => ?_⟩
    · have hne : (hydrate_session d doc).is_expired now = false := by
        simp only [ModeSession.is_expired, hexp]
        simpa using hlt
      simp [get_session, get_session_read, hd, hne]
    · have hyes : (hydrate_session d doc).is_expired now = true := by
        simp only [ModeSession.is_expired, hexp]
        simpa using hle
      simp [get_session, get_session_read, hd, hyes]
  · simp [get_session, get_session_read, hd]

/-- C5 witness: at instant 50 the sample lock (expiring at 100) is returned
with the store untouched; at instant 100 the read deletes it and reports
absence; an unknown device reads as absent with no side effect. -/
theorem get_session_lazy_expiry_witness :
    get_session sample_store "dev-1" 50 =
      (some (hydrate_session "dev-1" sample_doc), sample_store) ∧
    get_session sample_store "dev-1" 100 = (none, sample_store.erase "dev-1") ∧
    get_session sample_store "dev-2" 50 = (none, sample_store) :=
  ⟨((get_session_lazy_expiry sample_store "dev-1" 50).1 sample_doc 100
      (by decide) (by decide)).2.1 (by decide),
   ((get_session_lazy_expiry sample_store "dev-1" 100).1 sample_doc 100
      (by decide) (by decide)).2.2 (by decide),
   (get_session_lazy_expiry sample_store "dev-2" 50).2 (by decide)⟩

/-- C10: a failed document read makes `get_session` return absent without
raising and without deleting — the outcome a caller cannot tell apart from
the document being absent — and the scheduler's exclusivity check therefore
treats a device whose lock read fails as free: the target loop creates a
fresh session for it and emits its wake request. -/
theorem get_session_error_absent (σ : SessionStore) (d : String)
    (now : Int) (failing : String → Bool) (a : AlarmDoc) (m : String)
    (hf : failing d = true) (hd : d ≠ "") :
    get_session_read .err σ d now true = (none, σ) ∧
    get_session_read .err σ d now true =
      get_session_read (.ok none) σ d now true ∧
    scan_targets now failing a [{ device_id := d, mode := m }] σ =
      ([⟨a, { device_id := d, mode := m },
          (create_session σ d "alarm"
            { mode := m, alarmId := a.alarm_id, userId := a.user_id,
              label := a.label } (some SESSION_TTL) now [] false).1⟩],
       (create_session σ d "alarm"
          { mode := m, alarmId := a.alarm_id, userId := a.user_id,
            label := a.label } (some SESSION_TTL) now [] false).2,
       true) := by
  refine ⟨rfl, rfl, ?_⟩
  simp [scan_targets, hd, hf, get_session_read]

/-- C10 witness: a device whose read fails — here every read fails — gets a
fresh session and a wake request even though the store already holds a live
lock for it. -/
theorem get_session_error_absent_witness :
    scan_targets 50 (fun _ => true) sample_alarm
        [{ device_id := "dev-1", mode := "morning_alarm" }] sample_store =
      ([⟨sample_alarm, { device_id := "dev-1", mode := "morning_alarm" },
          (create_session sample_store "dev-1" "alarm"
            { mode := "morning_alarm", alarmId := sample_alarm.alarm_id,
              userId := sample_alarm.user_id, label := sample_alarm.label }
            (some SESSION_TTL) 50 [] false).1⟩],
       (create_session sample_store "dev-1" "alarm"
          { mode := "morning_alarm", alarmId := sample_alarm.alarm_id,
            userId := sample_alarm.user_id, label := sample_alarm.label }
          (some SESSION_TTL) 50 [] false).2,
       true) :=
  (get_session_error_absent sample_store "dev-1" 50 (fun _ => true)
    sample_alarm "morning_alarm" rfl (by decide)).2.2

/-- C9 counterexample: with `delays = [10, 15, 20]`, a follow-up count of 3
(the fourth follow-up) and the configured base delay 10, the code schedules
`10 + 3 * 10 = 40` seconds — not `delays[-1] + (count - len(delays)) * step`,
which is `20 + 0 * step = 20` whatever the step. -/
theorem followup_delay_counterexample :
    next_followup_delay (some [10, 15, 20]) 3 10 = 40 ∧ (40 : Int) ≠ 20 := by
  decide

/-- C9 amended: the scheduled delay is `delays[count]` while `count` is in
range; past the list it is `base + count * 10`, where `base` is the
configured `followup_delay` (replaced by 25 when it is 0), not the last
explicit delay; without a delays list the same escalation applies. -/
theorem followup_delay_formula (delays : List Int) (count : Nat)
    (base : Int) :
    (∀ h : count < delays.length,
      next_followup_delay (some delays) count base = delays.get ⟨count, h⟩) ∧
    (delays.length ≤ count → base ≠ 0 →
      next_followup_delay (some delays) count base =
        base + (count : Int) * 10) ∧
    (delays.length ≤ count → base = 0 →
      next_followup_delay (some delays) count base =
        25 + (count : Int) * 10) ∧
    (base ≠ 0 →
      next_followup_delay none count base = base + (count : Int) * 10) := by
  refine ⟨fun h => ?_, fun hlen hb => ?_, fun hlen hb => ?_, fun hb => ?_⟩
  · simp [next_followup_delay, h]
  · simp [next_followup_delay, Nat.not_lt.mpr hlen, hb]
  · simp [next_followup_delay, Nat.not_lt.mpr hlen, hb]
  · simp [next_followup_delay, hb]

/-- C9 witness: the amended escalation at `delays = [10, 15, 20]`,
`count = 3`, base delay 10 (the fourth follow-up targets 40 seconds), and
the in-range case at `count = 1`. -/
theorem followup_delay_formula_witness :
    next_followup_delay (some [10, 15, 20]) 3 10 = 10 + (3 : Int) * 10 ∧
    next_followup_delay (some [10, 15, 20]) 1 10 =
      ([10, 15, 20] : List Int).get ⟨1, by decide⟩ :=
  ⟨(followup_delay_formula [10, 15, 20] 3 10).2.1 (by decide) (by decide),
   (followup_delay_formula [10, 15, 20] 1 10).1 (by decide)⟩

/-- C8 counterexample: frames arriving with timestamps `[30, 10, 20, 40]`
at a fresh buffer (capacity 20 ≥ 2) are emitted as `[30, 40]`, not in
timestamp order `[10, 20, 30, 40]`: a frame at or above the watermark is
emitted immediately, and the flush loop only ever releases buffered frames
with timestamps above the watermark, which a late frame never has. -/
theorem audio_reorder_counterexample :
    (feed_frames audio_init [(30, 30), (10, 10), (20, 20), (40, 40)]).2 =
      [30, 40] ∧
    (feed_frames audio_init [(30, 30), (10, 10), (20, 20), (40, 40)]).2 ≠
      [10, 20, 30, 40] := by decide

/-- C8 amended: frames `[30, 10, 20, 40]` are emitted in arrival order of
the non-late frames, `[30, 40]`; the late frames 10 and 20 are stored in
the reorder window (and stay there: the watermark, now 40, only grows). -/
theorem audio_reorder_actual :
    (feed_frames audio_init [(30, 30), (10, 10), (20, 20), (40, 40)]).2 =
      [30, 40] ∧
    (feed_frames audio_init [(30, 30), (10, 10), (20, 20), (40, 40)]).1 =
      { buffer := [(10, 10), (20, 20)], last_processed_timestamp := 40,
        cap := 20 } := by decide

/-- The scan over consecutive day offsets returns `none` only when no
candidate day in the window both has an allowed weekday and yields a local
datetime strictly after the reference. -/
theorem try_deltas_none_spec (allowed : List (Fin 7)) (tl sl : Int) :
    ∀ (m k : Nat) (sd : Int),
      try_deltas allowed tl sl sd (List.range' k m) = none →
      ∀ day : Int, sd + (k : Int) ≤ day → day < sd + (k : Int) + (m : Int) →
        weekdayOf day ∈ allowed → day * 86400 + tl ≤ sl := by
  intro m
  induction m with
  | zero => intro k sd _ day h1 h2 _; omega
  | succ m ih =>
      intro k sd h day h1 h2 hw
      rw [List.range'_succ] at h
      simp only [try_deltas] at h
      rcases eq_or_lt_of_le h1 with heq | hlt
      · subst heq
        rw [if_pos hw] at h
        by_cases hc : sl < (sd + (k : Int)) * 86400 + tl
        · rw [if_pos hc] at h; exact absurd h (by simp)
        · omega
      · have h' : try_deltas allowed tl sl sd (List.range' (k + 1) m) = none := by
          by_cases hw0 : weekdayOf (sd + (k : Int)) ∈ allowed
          · rw [if_pos hw0] at h
            by_cases hc : sl < (sd + (k : Int)) * 86400 + tl
            · rw [if_pos hc] at h; exact absurd h (by simp)
            · rwa [if_neg hc] at h
          · rwa [if_neg hw0] at h
        have := ih (k + 1) sd h' day (by push_cast; omega) (by push_cast; omega) hw
        exact this

/-- The scan over consecutive day offsets returns the first — hence, since
candidates grow with the day, the smallest — candidate in the window whose
weekday is allowed and whose local datetime is strictly after the
reference. -/
theorem try_deltas_some_spec (allowed : List (Fin 7)) (tl sl : Int) :
    ∀ (m k : Nat) (sd : Int) (c : Int),
      try_deltas allowed tl sl sd (List.range' k m) = some c →
      sl < c ∧
      (∃ day : Int, sd + (k : Int) ≤ day ∧ day < sd + (k : Int) + (m : Int) ∧
        weekdayOf day ∈ allowed ∧ c = day * 86400 + tl) ∧
      ∀ day : Int, sd + (k : Int) ≤ day → day < sd + (k : Int) + (m : Int) →
        weekdayOf day ∈ allowed → sl < day * 86400 + tl →
        c ≤ day * 86400 + tl := by
  intro m
  induction m with
  | zero => intro k sd c h; exact absurd h (by simp [try_deltas])
  | succ m ih =>
      intro k sd c h
      rw [List.range'_succ] at h
      simp only [try_deltas] at h
      by_cases hw0 : weekdayOf (sd + (k : Int)) ∈ allowed
      · rw [if_pos hw0] at h
        by_cases hc : sl < (sd + (k : Int)) * 86400 + tl
        · rw [if_pos hc] at h
          have hcc : c = (sd + (k : Int)) * 86400 + tl := by
            simpa using h.symm
          subst hcc
          refine ⟨hc, ⟨sd + (k : Int), le_refl _, by push_cast; omega, hw0,
            rfl⟩, ?_⟩
          intro day h1 _ _ _
          omega
        · rw [if_neg hc] at h
          obtain ⟨hlt, ⟨day0, hd1, hd2, hdw, hdc⟩, hmin⟩ := ih (k + 1) sd c h
          refine ⟨hlt, ⟨day0, by push_cast at hd1 ⊢; omega,
            by push_cast at hd2 ⊢; omega, hdw, hdc⟩, ?_⟩
          intro day h1 h2 hwd hsl
          rcases eq_or_lt_of_le h1 with heq | hgt
          · subst heq; omega
          · exact hmin day (by push_cast; omega) (by push_cast at h2 ⊢; omega)
              hwd hsl
      · rw [if_neg hw0] at h
        obtain ⟨hlt, ⟨day0, hd1, hd2, hdw, hdc⟩, hmin⟩ := ih (k + 1) sd c h
        refine ⟨hlt, ⟨day0, by push_cast at hd1 ⊢; omega,
          by push_cast at hd2 ⊢; omega, hdw, hdc⟩, ?_⟩
        intro day h1 h2 hwd hsl
        rcases eq_or_lt_of_le h1 with heq | hgt
        · subst heq; exact absurd hwd hw0
        · exact hmin day (by push_cast; omega) (by push_cast at h2 ⊢; omega)
            hwd hsl

/-- Any nonempty allowed-weekday set is hit by some day among the seven days
after a given day: weekdays cycle with period 7. -/
theorem exists_allowed_day (allowed : List (Fin 7)) (hne : allowed ≠ [])
    (sd : Int) :
    ∃ day : Int, sd + 1 ≤ day ∧ day ≤ sd + 7 ∧ weekdayOf day ∈ allowed := by
  obtain ⟨w, ws, rfl⟩ : ∃ w ws, allowed = w :: ws := by
    cases allowed with
    | nil => exact absurd rfl hne
    | cons w ws => exact ⟨w, ws, rfl⟩
  have hw7 : ((w : Int)) < 7 ∧ 0 ≤ ((w : Int)) := by
    have := w.isLt
    omega
  refine ⟨sd + 1 + (((w : Int)) - (sd + 4)) % 7, by omega, by omega, ?_⟩
  have hwd : weekdayOf (sd + 1 + (((w : Int)) - (sd + 4)) % 7) = w := by
    apply Fin.ext
    show (((sd + 1 + (((w : Int)) - (sd + 4)) % 7) + 3) % 7).toNat = w.val
    omega
  rw [hwd]
  exact List.mem_cons_self w ws

/-- The allowed-days list is never empty: an empty schedule list means every
day is allowed. -/
theorem allowed_days_ne_nil (days : List (Fin 7)) : allowed_days days ≠ [] := by
  unfold allowed_days
  split
  · simp
  · assumption

/-- C3: over a fixed-offset timezone, `compute_next_occurrence` returns the
smallest UTC instant strictly greater than the reference instant
`max(nextOccurrenceUtc or now, now)` whose local conversion has time-of-day
equal to the rule's local time and weekday in the allowed set (the empty
schedule set allowing every day). -/
theorem compute_next_occurrence_least (off tl : Int) (days : List (Fin 7))
    (nxt : Option Int) (now : Int) (h0 : 0 ≤ tl) (h1 : tl < 86400) :
    max (nxt.getD now) now < compute_next_occurrence off tl days nxt now ∧
    matches_rule off tl days (compute_next_occurrence off tl days nxt now) ∧
    ∀ u : Int, max (nxt.getD now) now < u →
      u < compute_next_occurrence off tl days nxt now →
      ¬ matches_rule off tl days u := by
  have hne := allowed_days_ne_nil days
  simp only [compute_next_occurrence, matches_rule]
  generalize max (nxt.getD now) now = start
  obtain ⟨day0, hd1, hd2, hdw⟩ :=
    exists_allowed_day (allowed_days days) hne ((start + off) / 86400)
  rcases htry : try_deltas (allowed_days days) tl (start + off)
      ((start + off) / 86400) (List.range 8) with _ | c
  · exfalso
    rw [List.range_eq_range'] at htry
    have hnone := try_deltas_none_spec (allowed_days days) tl (start + off) 8 0
      ((start + off) / 86400) htry day0 (by push_cast; omega)
      (by push_cast; omega) hdw
    omega
  · show start < c - off ∧
      ((c - off + off) % 86400 = tl ∧
        weekdayOf ((c - off + off) / 86400) ∈ allowed_days days) ∧
      ∀ u : Int, start < u → u < c - off →
        ¬((u + off) % 86400 = tl ∧
          weekdayOf ((u + off) / 86400) ∈ allowed_days days)
    rw [List.range_eq_range'] at htry
    obtain ⟨hlt, ⟨dayc, hc1, hc2, hcw, hcc⟩, hmin⟩ :=
      try_deltas_some_spec (allowed_days days) tl (start + off) 8 0
        ((start + off) / 86400) c htry
    push_cast at hc1 hc2
    have hdivc : (c - off + off) / 86400 = dayc := by omega
    refine ⟨by omega, ⟨by omega, ?_⟩, ?_⟩
    · rw [hdivc]; exact hcw
    · intro u hu1 hu2 hm
      obtain ⟨hm1, hm2⟩ := hm
      have := hmin ((u + off) / 86400) (by push_cast; omega)
        (by push_cast; omega) hm2 (by omega)
      omega

/-- The `userHasResponded` latch is monotone: no connection event resets it. -/
theorem conn_step_latch_mono (st : FollowupLatchState) (e : ConnEvent)
    (h : st.user_has_responded = true) :
    (conn_step st e).1.user_has_responded = true := by
  cases e with
  | chat q u =>
      by_cases hc : q ≠ "" ∧ u <;> simp [conn_step, chat_followup_gate, hc, h]
  | schedule => simpa [conn_step] using h
  | poll env =>
      cases ht : st.task with
      | none => simpa [conn_step, ht] using h
      | some t =>
          by_cases hcd : (t.cancelled || t.done) = true
          · simpa [conn_step, ht, hcd] using h
          · simp [conn_step, ht, hcd, followup_poll_step, h]

/-- A poll tick seen from a latched state never fires: the latch check is
the first thing the `while True` body does, and it cancels the task. -/
theorem conn_step_latched_no_fire (st : FollowupLatchState) (e : ConnEvent)
    (h : st.user_has_responded = true) : (conn_step st e).2 = false := by
  cases e with
  | chat q u => simp [conn_step]
  | schedule => simp [conn_step]
  | poll env =>
      cases ht : st.task with
      | none => simp [conn_step, ht]
      | some t =>
          by_cases hcd : (t.cancelled || t.done) = true
          · simp [conn_step, ht, hcd]
          · simp [conn_step, ht, hcd, followup_poll_step, h]

/-- From a latched state no run of connection events ever fires a
follow-up. -/
theorem run_fires_latched (events : List ConnEvent) :
    ∀ st : FollowupLatchState, st.user_has_responded = true →
      run_fires st events = false := by
  induction events with
  | nil => intro st _; rfl
  | cons e es ih =>
      intro st h
      simp only [run_fires, Bool.or_eq_false_iff]
      exact ⟨conn_step_latched_no_fire st e h,
        ih (conn_step st e).1 (conn_step_latch_mono st e h)⟩

/-- C6: processing a chat turn with a nonempty query flagged as genuine
user input sets the `userHasResponded` latch, cancels any pending
not-yet-done follow-up task, and afterwards no run of connection events
(further turns, re-schedules, poll ticks of a pending timer) ever fires a
follow-up; turns submitted with `is_user_input = False` never set the
latch. -/
theorem followup_cancellation (st : FollowupLatchState) (q : String)
    (events : List ConnEvent) (hq : q ≠ "") :
    (chat_followup_gate q true st).user_has_responded = true ∧
    (∀ t, st.task = some t → t.done = false →
      (chat_followup_gate q true st).task =
        some { cancelled := true, done := t.done }) ∧
    run_fires (chat_followup_gate q true st) events = false ∧
    (∀ (q' : String) (st' : FollowupLatchState),
      (chat_followup_gate q' false st').user_has_responded =
        st'.user_has_responded) := by
  have hlatch : (chat_followup_gate q true st).user_has_responded = true := by
    simp [chat_followup_gate, hq]
  refine ⟨hlatch, fun t ht hd => ?_, run_fires_latched events _ hlatch,
    fun q' st' => ?_⟩
  · simp [chat_followup_gate, hq, ht, hd]
  · simp [chat_followup_gate]

/-- C1: the duplicate-delivery guard skips whole any due trigger whose
`lastProcessedUtc` is set and at least its `nextOccurrenceUtc` (no session
created, no wake request, no advancement); and the scan is idempotent:
re-running it at the same instant on its own output emits no wake request
and changes nothing, so each due trigger fires at most once across the two
calls, and a trigger the first call fired and advanced shows the second
call `lastProcessedUtc` equal to the old `nextOccurrenceUtc`. -/
theorem scan_idempotent_once (now la : Int) (alarms : List AlarmDoc)
    (σ : SessionStore) :
    (∀ (a : AlarmDoc) (σ' : SessionStore) (nxt lp : Int),
      a.next_occurrence_utc = some nxt → a.last_processed_utc = some lp →
      nxt ≤ lp →
      handle_alarm now la no_failures a σ' = ([], a, σ')) ∧
    prepare_wake_requests now la no_failures
        (prepare_wake_requests now la no_failures alarms σ).2.1
        (prepare_wake_requests now la no_failures alarms σ).2.2 =
      ([], (prepare_wake_requests now la no_failures alarms σ).2.1,
       (prepare_wake_requests now la no_failures alarms σ).2.2) ∧
    (∀ (a : AlarmDoc) (σ' : SessionStore) (nxt off : Int) (p : String),
      due_pred now la a = true → guard_skip a = false →
      a.next_occurrence_utc = some nxt → a.tzoffset = some off →
      a.doc_path = some p → p ≠ "" →
      (scan_targets now no_failures a a.targets σ').2.2 = true →
      (handle_alarm now la no_failures a σ').2.1.last_processed_utc =
        a.next_occurrence_utc) := by
  refine ⟨?_, ?_, ?_⟩
  · intro a σ' nxt lp hnx hlp hle
    have hg : guard_skip a = true := by
      unfold guard_skip
      rw [hlp, hnx]
      simpa using hle
    exact handle_alarm_guard_skip now la no_failures a σ' hg
  · exact scan_noop_of_post now la _ _
      (fun a' ha' hdue' hg' t ht hne =>
        scan_post now la alarms σ a' ha' hdue' hg' t ht hne)
  · intro a σ' nxt off p hdue hg hnx htz hdp hp hfired
    rw [handle_alarm_advanced now la no_failures a σ' nxt off p hdue hg hnx
      htz hdp hp hfired]
    rw [hnx]

/-- C1 witness: the guard skips a trigger with
`lastProcessedUtc = nextOccurrenceUtc`; a second scan of the one-alarm
store right after the first is a no-op; and the advanced sample alarm's
written `lastProcessedUtc` is its old `nextOccurrenceUtc`. -/
theorem scan_idempotent_once_witness :
    handle_alarm 460800 120 no_failures guarded_alarm empty_store =
      ([], guarded_alarm, empty_store) ∧
    prepare_wake_requests 460800 120 no_failures
        (prepare_wake_requests 460800 120 no_failures [sample_alarm]
          empty_store).2.1
        (prepare_wake_requests 460800 120 no_failures [sample_alarm]
          empty_store).2.2 =
      ([], (prepare_wake_requests 460800 120 no_failures [sample_alarm]
          empty_store).2.1,
       (prepare_wake_requests 460800 120 no_failures [sample_alarm]
          empty_store).2.2) ∧
    (handle_alarm 460800 120 no_failures sample_alarm
        empty_store).2.1.last_processed_utc =
      sample_alarm.next_occurrence_utc :=
  ⟨(scan_idempotent_once 460800 120 [sample_alarm] empty_store).1
     guarded_alarm empty_store 370800 370800 (by decide) (by decide)
     (by decide),
   (scan_idempotent_once 460800 120 [sample_alarm] empty_store).2.1,
   (scan_idempotent_once 460800 120 [sample_alarm] empty_store).2.2
     sample_alarm empty_store 370800 0 "users/user-xyz/alarms/alarm-123"
     (by decide) (by decide) (by decide) (by decide) (by decide) (by decide)
     (by decide)⟩

/-- C2: a device with a non-expired Session Lock is exclusive — a trigger
whose only target is that device is processed into no wake request, no new
lock and no advancement; more generally a scan leaves every live lock's
document untouched (preserving the device-keyed store's at-most-one-live-
lock-per-device invariant) and emits no wake request for a live-locked
device. -/
theorem lock_exclusivity (now la : Int) :
    (∀ (a : AlarmDoc) (σ : SessionStore) (d m : String),
      a.targets = [{ device_id := d, mode := m }] → d ≠ "" →
      is_live σ d now = true →
      handle_alarm now la no_failures a σ = ([], a, σ)) ∧
    (∀ (alarms : List AlarmDoc) (σ : SessionStore) (d : String),
      is_live σ d now = true →
      (prepare_wake_requests now la no_failures alarms σ).2.2 d = σ d) ∧
    (∀ (alarms : List AlarmDoc) (σ : SessionStore) (d : String),
      is_live σ d now = true →
      ∀ r ∈ (prepare_wake_requests now la no_failures alarms σ).1,
        r.target.device_id ≠ d) := by
  refine ⟨?_, scan_preserves_live now la, scan_no_wake_for_live now la⟩
  intro a σ d m htg hd hlive
  by_cases hdue : due_pred now la a = true
  · by_cases hg : guard_skip a = true
    · exact handle_alarm_guard_skip now la no_failures a σ hg
    · have hg0 : guard_skip a = false := by simpa using hg
      have hall : ∀ t ∈ a.targets, t.device_id ≠ "" →
          is_live σ t.device_id now = true := by
        intro t ht _
        rw [htg] at ht
        rw [List.mem_singleton.mp ht]
        exact hlive
      have hnoop := scan_targets_noop_of_live now a a.targets σ hall
      have hnf := handle_alarm_not_fired now la no_failures a σ hdue hg0
        (by rw [hnoop])
      rw [hnf, hnoop]
  · exact handle_alarm_not_due now la no_failures a σ (by simpa using hdue)

/-- C2 witness: with a live lock for `"dev-1"` (expiring at 100, scanned at
50), the single-target sample alarm is a no-op, the lock's document is
untouched by the scan, and no wake request targets the device. -/
theorem lock_exclusivity_witness :
    handle_alarm 50 120 no_failures single_alarm sample_store =
      ([], single_alarm, sample_store) ∧
    (prepare_wake_requests 50 120 no_failures [single_alarm]
      sample_store).2.2 "dev-1" = sample_store "dev-1" ∧
    ∀ r ∈ (prepare_wake_requests 50 120 no_failures [single_alarm]
      sample_store).1, r.target.device_id ≠ "dev-1" :=
  ⟨(lock_exclusivity 50 120).1 single_alarm sample_store "dev-1"
     "morning_alarm" (by decide) (by decide) (by decide),
   (lock_exclusivity 50 120).2.1 [single_alarm] sample_store "dev-1"
     (by decide),
   (lock_exclusivity 50 120).2.2 [single_alarm] sample_store "dev-1"
     (by decide)⟩

/-- C7 counterexample: a daily 07:00-UTC trigger last due Monday 07:00
(370800) scanned late at Tuesday 08:00 (460800) fires (one wake request)
and is advanced to Wednesday 07:00 (543600), the occurrence computed with
reference `max(prev nextOccurrence, now) = now` — whereas the occurrence
computed with the previous `nextOccurrenceUtc` as the reference instant is
Tuesday 07:00 (457200). -/
theorem advance_reference_counterexample :
    (prepare_wake_requests 460800 120 no_failures [sample_alarm]
      empty_store).1.length = 1 ∧
    (prepare_wake_requests 460800 120 no_failures [sample_alarm]
      empty_store).2.1.map (fun a => a.next_occurrence_utc) =
      [some 543600] ∧
    compute_next_occurrence 0 25200 [] (some 370800) 370800 = 457200 ∧
    (543600 : Int) ≠ 457200 := by decide

/-- C7 amended: whenever at least one target of a due trigger fires (and
the trigger's timezone and document path are usable), the scheduler writes
back `lastProcessedUtc` = the previous `nextOccurrenceUtc` and
`nextOccurrenceUtc` = the next occurrence computed with
`max(previous nextOccurrenceUtc, now)` — not the previous
`nextOccurrenceUtc` alone — as the reference instant. -/
theorem advance_writes_back (now la : Int) (f : String → Bool) (a : AlarmDoc)
    (σ : SessionStore) (nxt off : Int) (p : String)
    (hdue : due_pred now la a = true) (hg : guard_skip a = false)
    (hnx : a.next_occurrence_utc = some nxt) (htz : a.tzoffset = some off)
    (hdp : a.doc_path = some p) (hp : p ≠ "")
    (hfired : (scan_targets now f a a.targets σ).2.2 = true) :
    (handle_alarm now la f a σ).2.1.last_processed_utc =
      a.next_occurrence_utc ∧
    (handle_alarm now la f a σ).2.1.next_occurrence_utc =
      some (compute_next_occurrence off a.time_local a.days
        a.next_occurrence_utc now) := by
  rw [handle_alarm_advanced now la f a σ nxt off p hdue hg hnx htz hdp hp
    hfired]
  exact ⟨by rw [hnx], rfl⟩

/-- C7 witness: the late-scanned sample alarm is advanced with
`lastProcessedUtc` = its old `nextOccurrenceUtc` and `nextOccurrenceUtc` =
the occurrence `compute_next_occurrence` yields for `now` = Tuesday
08:00. -/
theorem advance_writes_back_witness :
    (handle_alarm 460800 120 no_failures sample_alarm
        empty_store).2.1.last_processed_utc =
      sample_alarm.next_occurrence_utc ∧
    (handle_alarm 460800 120 no_failures sample_alarm
        empty_store).2.1.next_occurrence_utc =
      some (compute_next_occurrence 0 sample_alarm.time_local
        sample_alarm.days sample_alarm.next_occurrence_utc 460800) :=
  advance_writes_back 460800 120 no_failures sample_alarm empty_store 370800
    0 "users/user-xyz/alarms/alarm-123" (by decide) (by decide) (by decide)
    (by decide) (by decide) (by decide) (by decide)

/-- C3 witness: the Monday-only 07:00-local rule in a fixed UTC−8 timezone
(local Monday 07:00 = UTC Monday 15:00 = 399600), referenced at that same
instant, yields the following Monday 15:00 UTC (= 1004400): strictly later,
matching the rule, and (by the theorem) the least such instant. -/
theorem compute_next_occurrence_least_witness :
    max ((some (399600 : Int)).getD 399600) 399600 <
      compute_next_occurrence (-28800) 25200 [0] (some 399600) 399600 ∧
    matches_rule (-28800) 25200 [0]
      (compute_next_occurrence (-28800) 25200 [0] (some 399600) 399600) ∧
    compute_next_occurrence (-28800) 25200 [0] (some 399600) 399600 =
      1004400 :=
  ⟨(compute_next_occurrence_least (-28800) 25200 [0] (some 399600) 399600
      (by decide) (by decide)).1,
   (compute_next_occurrence_least (-28800) 25200 [0] (some 399600) 399600
      (by decide) (by decide)).2.1,
   by decide⟩

/-- C6 witness: a genuine turn `"hello"` from an unlatched state with a
pending uncancelled task latches, cancels the task, and a subsequent run —
a re-schedule, an idle tick, a silence-expired tick, and a synthetic turn —
fires nothing. -/
theorem followup_cancellation_witness :
    (chat_followup_gate "hello" true
      { user_has_responded := false,
        task := some { cancelled := false, done := false } }).task =
      some { cancelled := true, done := false } ∧
    run_fires
      (chat_followup_gate "hello" true
        { user_has_responded := false,
          task := some { cancelled := false, done := false } })
      [.schedule,
       .poll { client_is_speaking := false, llm_finish_task := false,
               silence_reached := false },
       .poll { client_is_speaking := false, llm_finish_task := true,
               silence_reached := true },
       .chat "" false] = false :=
  ⟨(followup_cancellation
      { user_has_responded := false,
        task := some { cancelled := false, done := false } } "hello" []
      (by decide)).2.1 { cancelled := false, done := false } rfl rfl,
   (followup_cancellation
      { user_has_responded := false,
        task := some { cancelled := false, done := false } } "hello"
      [.schedule,
       .poll { client_is_speaking := false, llm_finish_task := false,
               silence_reached := false },
       .poll { client_is_speaking := false, llm_finish_task := true,
               silence_reached := true },
       .chat "" false] (by decide)).2.2.1⟩

end BabyMilu
